import Mathlib

/-!
Verification of the search orchestration core of the repository
(`src/lib/services/search/SearchService.ts` and
`src/lib/services/search/ContentEditableChipService.ts`).

The TypeScript classes are shallowly embedded: the mutable `SearchState`
aggregate and the service-level fields (`abortController`, `requestId`)
become a record `ServiceState`; every method becomes a pure function from
the old state (plus the data the method receives asynchronously) to the
new state.  Asynchronous completions (the `.then` handlers installed by
`executeSearch`) become explicit operations carrying the request id they
captured at installation time, so interleavings of generations can be
expressed as sequences of operations.
-/

namespace KiteSearch

/-- A story as far as the search core observes it: only the (possibly
absent) title takes part in deduplication; `sid` keeps distinct stories
distinguishable. -/
structure Story where
  title : Option String
  sid : Nat
deriving DecidableEq, Repr

/-- Record `SearchResult` from `types.ts` (modelled from the spec for the record
shape: `{ story, batchId? }`, presence of `batchId` marks a historical
result).  `batchId = none` models an absent field. -/
structure SearchResult where
  story : Story
  batchId : Option String
deriving DecidableEq, Repr

/-- Record `SearchFilter`: `{ type, value, display, isValid }`. -/
structure SearchFilter where
  type : String
  value : String
  display : String
  isValid : Bool
deriving DecidableEq, Repr

/-- The `SearchState` aggregate owned by `SearchService` (fields and
initial values from `SearchService.ts` lines 13-24). -/
structure SearchState where
  query : String
  filters : List SearchFilter
  results : List SearchResult
  isLoading : Bool
  isLoadingMore : Bool
  hasMore : Bool
  selectedIndex : Nat
  totalCount : Nat
  currentOffset : Nat
  allHistoricalResults : List SearchResult
deriving DecidableEq, Repr

/-- Initial/reset `SearchState` (used by the field initializer and by
`clear()`). -/
def initialSearchState : SearchState :=
  { query := ""
    filters := []
    results := []
    isLoading := false
    isLoadingMore := false
    hasMore := false
    selectedIndex := 0
    totalCount := 0
    currentOffset := 0
    allHistoricalResults := [] }

/-- An `AbortController` as the service observes it: only its aborted
flag matters. -/
structure AbortCtrl where
  aborted : Bool
deriving DecidableEq, Repr

/-- The whole `SearchService` instance state: the `SearchState` aggregate
plus the private fields `abortController` and `requestId`. -/
structure ServiceState where
  state : SearchState
  abortController : Option AbortCtrl
  requestId : Nat
deriving DecidableEq, Repr

/-- A fresh `SearchService` (constructor state). -/
def initService : ServiceState :=
  { state := initialSearchState, abortController := none, requestId := 0 }

/-- JS truthiness of an optional string: `undefined`/`null` and `""` are
falsy.  Used for `!r.batchId` and `if (result.filterText)`. -/
def jsFalsyStr : Option String → Bool
  | none => true
  | some s => s = ""

/-- Constant `DEFAULT_SEARCH_LIMIT`.  Modelled from the spec: the constant lives in
`search/types.ts`, which is not among the provided sources; the spec calls
it the page size (`limit`).  Its concrete value is irrelevant to every
claim, which only speak of "the page size"; it is fixed here arbitrarily
but positively. -/
def DEFAULT_SEARCH_LIMIT : Nat := 20

/-- JS `String.prototype.toLowerCase`, modelled character-wise (stated
over the character list so that it evaluates inside the kernel). -/
def jsToLower (s : String) : String :=
  String.mk (s.data.map Char.toLower)

/-- JS `s.includes(" ")`: whether the string contains a space
character. -/
def jsIncludesSpace (s : String) : Bool :=
  s.data.contains ' '

/-- Whether a string contains any whitespace character (what the claim
says should trigger quoting). -/
def hasAnyWhitespace (s : String) : Bool :=
  s.data.any Char.isWhitespace

/-- The lower-cased title the dedup loop computes:
`result.story.title?.toLowerCase()`. -/
def lowerTitle (r : SearchResult) : Option String :=
  r.story.title.map jsToLower

/-- The `for` loop of `combineResults` (lines 392-398): walk historical
results keeping `existingTitles` (a set of optional lower-cased titles);
push a result iff its lower-cased title is truthy and not in the set, then
add the title to the set. -/
def combineLoop (seen : List (Option String)) : List SearchResult → List SearchResult
  | [] => []
  | r :: rest =>
    match lowerTitle r with
    | some t =>
      if t ≠ "" ∧ some t ∉ seen then
        r :: combineLoop (some t :: seen) rest
      else
        combineLoop seen rest
    | none => combineLoop seen rest

/-- Method `combineResults(localResults, historicalResults)` (lines 382-401):
start from a copy of the local results, seed `existingTitles` with every
local result's `story.title?.toLowerCase()` (absent titles contribute the
`undefined` member, kept here as `none`), then run the loop. -/
def combineResults (localResults historicalResults : List SearchResult) : List SearchResult :=
  localResults ++ combineLoop (localResults.map lowerTitle) historicalResults

/-- Resolved value of the local phase of
`SearchExecutorService.executeSearch` as `SearchService` consumes it
(fields `localResults`, `localCount`). -/
structure LocalResponse where
  localResults : List SearchResult
  localCount : Nat
deriving DecidableEq, Repr

/-- Resolved value of the historical phase as `SearchService` consumes it
(fields `historicalResults`, `historicalCount`, `hasMore`). -/
structure HistoricalResponse where
  historicalResults : List SearchResult
  historicalCount : Nat
  hasMore : Bool
deriving DecidableEq, Repr

/-- Outcome of the awaited historical fetch in `loadMoreResults`: it
either resolves with a response or throws (the thrown error, abort
included, lands in the method's own `catch`). -/
inductive FetchOutcome where
  | success (resp : HistoricalResponse)
  | failure
deriving DecidableEq, Repr

/-- Method `cancelActiveSearch` (lines 406-413): abort the stored controller if
present and not yet aborted, drop the reference, clear `isLoading`.  The
returned Bool reports whether `abort()` was actually invoked. -/
def cancelActiveSearch (svc : ServiceState) : ServiceState × Bool :=
  let didAbort :=
    match svc.abortController with
    | some c => !c.aborted
    | none => false
  ({ svc with
      abortController := none
      state := { svc.state with isLoading := false } },
   didAbort)

/-- Method `clear()` (lines 59-76): cancel the active search, then reset the
whole `SearchState` to its initial form.  (`chipService.clear()` touches
only the chip editor, modelled separately.)  The Bool reports whether an
abort was performed. -/
def clearService (svc : ServiceState) : ServiceState × Bool :=
  let (svc1, didAbort) := cancelActiveSearch svc
  ({ svc1 with state := initialSearchState }, didAbort)

/-- Method `updateFromInput` (lines 81-109) as far as it touches `SearchState`:
it writes the parser's decomposition into `query` and `filters`.  The
parser itself (`SearchFilterService.parseInput`) is not among the provided
sources, so its output is taken as a parameter. -/
def updateFromInput (s : SearchState) (parsedQuery : String)
    (parsedFilters : List SearchFilter) : SearchState :=
  { s with query := parsedQuery, filters := parsedFilters }

/-- The canonical token rebuilt for a filter in `handleChipDeletion`
(line 143): `type:value`, the value wrapped in double quotes iff it
contains a space character. -/
def chipDeletionFilterText (f : SearchFilter) : String :=
  f.type ++ ":" ++ (if jsIncludesSpace f.value then "\"" ++ f.value ++ "\"" else f.value)

/-- Method `handleChipDeletion` (lines 136-156) as far as it touches
`SearchState`: when the chip service reports a deletion, remove the
filter whose rebuilt token equals the reported `filterText` (only when
that text is truthy), then apply `updateFromInput` on the new editor
text, whose parse is taken as parameters. -/
def handleChipDeletion (svc : ServiceState) (deleted : Bool)
    (deletedFilterText : Option String) (parsedQuery : String)
    (parsedFilters : List SearchFilter) : ServiceState :=
  if deleted then
    let removed :=
      if jsFalsyStr deletedFilterText then svc.state.filters
      else svc.state.filters.filter
        (fun f => some (chipDeletionFilterText f) ≠ deletedFilterText)
    let s1 := { svc.state with filters := removed }
    { svc with state := updateFromInput s1 parsedQuery parsedFilters }
  else svc

/-- What the synchronous part of `executeSearch` did: the value returned
by the early-return branch (if taken), whether `abort()` was invoked on
the previous controller, which fetches were started, and the request id
the completion handlers captured. -/
structure StartInfo where
  earlyReturn : Option (List SearchResult)
  didAbort : Bool
  localFetchIssued : Bool
  histFetchIssued : Bool
  capturedId : Nat
deriving DecidableEq, Repr

/-- The guard of `executeSearch` (line 171):
`!this.state.query && !this.state.filters.some(f => f.isValid)`. -/
def emptySearchGuard (s : SearchState) : Bool :=
  s.query = "" && !(s.filters.any (fun f => f.isValid))

/-- The synchronous segment of `executeSearch` (lines 170-247), up to and
including launching both fetches: early return on the empty guard
(setting `results := []`, `hasMore := false`); otherwise cancel the
active search, install a fresh `AbortController`, set `isLoading`, reset
`currentOffset` and `allHistoricalResults`, capture `++requestId`, start
the local fetch, and start the historical fetch iff the passed
`includeHistorical` option is not `false` and the feature flag is on and
(`query.length >= 3` or at least one filter is present). -/
def executeSearchStart (svc : ServiceState) (histFeature : Bool)
    (optIncludeHistorical : Bool) : ServiceState × StartInfo :=
  if emptySearchGuard svc.state then
    ({ svc with state := { svc.state with results := [], hasMore := false } },
     { earlyReturn := some []
       didAbort := false
       localFetchIssued := false
       histFetchIssued := false
       capturedId := svc.requestId })
  else
    let (svc1, didAbort) := cancelActiveSearch svc
    let svc2 : ServiceState :=
      { svc1 with
          abortController := some { aborted := false }
          requestId := svc1.requestId + 1
          state := { svc1.state with
                       isLoading := true
                       currentOffset := 0
                       allHistoricalResults := [] } }
    let canSearchHistorical :=
      histFeature && (svc2.state.query.length ≥ 3 || svc2.state.filters.length > 0)
    (svc2,
     { earlyReturn := none
       didAbort := didAbort
       localFetchIssued := true
       histFetchIssued := optIncludeHistorical && canSearchHistorical
       capturedId := svc2.requestId })

/-- The `.then` handler installed on the local promise (lines 207-222):
applied only when the captured request id still equals the current one;
then `results`, `selectedIndex := 0`, `isLoading := false`, `totalCount`
are written from the local response. -/
def applyLocalCompletion (svc : ServiceState) (capturedId : Nat)
    (resp : LocalResponse) : ServiceState :=
  if capturedId = svc.requestId then
    { svc with
        state := { svc.state with
                     results := resp.localResults
                     selectedIndex := 0
                     isLoading := false
                     totalCount := resp.localCount } }
  else svc

/-- The `.then` handler installed on the historical promise
(lines 250-281): applied only when the captured request id still equals
the current one; then the historical page replaces
`allHistoricalResults`, the current local results (those with a falsy
`batchId`) are recombined with it, and `hasMore` / `totalCount` /
`currentOffset := 0` are written from the response. -/
def applyHistoricalCompletion (svc : ServiceState) (capturedId : Nat)
    (resp : HistoricalResponse) : ServiceState :=
  if capturedId = svc.requestId then
    let allHist := resp.historicalResults
    let currentLocalResults := svc.state.results.filter (fun r => jsFalsyStr r.batchId)
    let combined := combineResults currentLocalResults allHist
    { svc with
        state := { svc.state with
                     allHistoricalResults := allHist
                     results := combined
                     hasMore := resp.hasMore
                     totalCount := resp.historicalCount
                     currentOffset := 0 } }
  else svc

/-- Method `loadMoreResults` (lines 323-377), collapsed over its single await:
no-op (and no fetch) when already loading more or `hasMore` is false;
otherwise fetch at `currentOffset + DEFAULT_SEARCH_LIMIT`; on success
append the page to both `allHistoricalResults` and `results`, advance
`currentOffset` to the offset just used, and adopt `hasMore` /
`totalCount` from the response; on a thrown error only log (state
untouched); `finally` clears `isLoadingMore`.  The Bool reports whether a
fetch was issued. -/
def loadMoreResults (svc : ServiceState) (outcome : FetchOutcome) :
    ServiceState × Bool :=
  if svc.state.isLoadingMore || !svc.state.hasMore then
    (svc, false)
  else
    let nextOffset := svc.state.currentOffset + DEFAULT_SEARCH_LIMIT
    match outcome with
    | FetchOutcome.success resp =>
      ({ svc with
          state := { svc.state with
                       isLoadingMore := false
                       allHistoricalResults :=
                         svc.state.allHistoricalResults ++ resp.historicalResults
                       results := svc.state.results ++ resp.historicalResults
                       currentOffset := nextOffset
                       hasMore := resp.hasMore
                       totalCount := resp.historicalCount } },
       true)
    | FetchOutcome.failure =>
      ({ svc with state := { svc.state with isLoadingMore := false } }, true)

/-- Method `navigateSelection` (lines 418-430): no-op on empty results; `down`
is a circular increment, `up` wraps from 0 to the last index. -/
def navigateSelection (s : SearchState) (down : Bool) : SearchState :=
  if s.results.length = 0 then s
  else if down then
    { s with selectedIndex := (s.selectedIndex + 1) % s.results.length }
  else
    { s with selectedIndex :=
        if s.selectedIndex = 0 then s.results.length - 1 else s.selectedIndex - 1 }

/-- Method `getSelectedResult` (lines 435-437):
`this.state.results[this.state.selectedIndex] || null`.  Results are
objects (never falsy), so `|| null` fires exactly on the out-of-range
`undefined`. -/
def getSelectedResult (s : SearchState) : Option SearchResult :=
  s.results.get? s.selectedIndex

/-- Record `FilterSuggestion` from `types.ts` (modelled from the spec:
`{ value, display, label, isFilterType }`; the record lives in
`search/types.ts`, not among the provided sources). -/
structure FilterSuggestion where
  value : String
  display : Option String
  label : Option String
  isFilterType : Bool
deriving DecidableEq, Repr

/-- Record `FilterContext` from `types.ts` (modelled from the spec:
`{ type, startIndex, fullMatch }`). -/
structure FilterContext where
  type : String
  startIndex : Nat
  fullMatch : String
deriving DecidableEq, Repr

/-- The canonical token `ContentEditableChipService.applyFilterSuggestion`
builds for a value suggestion (lines 89-94): quotes are added iff
`suggestion.value.includes(" ")`, i.e. iff the value contains the space
character. -/
def completedFilterToken (ctxType : String) (value : String) : String :=
  let needsQuotes := jsIncludesSpace value
  let filterValue := if needsQuotes then "\"" ++ value ++ "\"" else value
  ctxType ++ ":" ++ filterValue

/-- Method `applyFilterSuggestion` (lines 78-105) as far as token construction
goes: a filter-type suggestion only rewrites text (no chip, no token);
a value suggestion creates a chip whose `data-filter` attribute is the
completed canonical token. -/
def applyFilterSuggestionToken (suggestion : FilterSuggestion)
    (context : FilterContext) : Option String :=
  if suggestion.isFilterType then none
  else some (completedFilterToken context.type suggestion.value)

/-- One operation of the orchestrator, as observable from `SearchState`:
the synchronous part of `executeSearch`, the two completion handlers it
installed (carrying their captured request id and the resolved response),
a collapsed `loadMoreResults` call with its fetch outcome, selection
navigation, `clear()`, and the two input-editing entry points. -/
inductive SearchOp where
  | execStart (histFeature optIncludeHistorical : Bool)
  | localDone (capturedId : Nat) (resp : LocalResponse)
  | histDone (capturedId : Nat) (resp : HistoricalResponse)
  | loadMore (outcome : FetchOutcome)
  | navigate (down : Bool)
  | clearOp
  | updateInput (parsedQuery : String) (parsedFilters : List SearchFilter)
  | chipDelete (deleted : Bool) (deletedFilterText : Option String)
      (parsedQuery : String) (parsedFilters : List SearchFilter)
deriving DecidableEq, Repr

/-- Apply one operation to the service state. -/
def stepOp (svc : ServiceState) : SearchOp → ServiceState
  | SearchOp.execStart hf inc => (executeSearchStart svc hf inc).1
  | SearchOp.localDone cid resp => applyLocalCompletion svc cid resp
  | SearchOp.histDone cid resp => applyHistoricalCompletion svc cid resp
  | SearchOp.loadMore outcome => (loadMoreResults svc outcome).1
  | SearchOp.navigate down => { svc with state := navigateSelection svc.state down }
  | SearchOp.clearOp => (clearService svc).1
  | SearchOp.updateInput q fs => { svc with state := updateFromInput svc.state q fs }
  | SearchOp.chipDelete d ft q fs => handleChipDeletion svc d ft q fs

/-- Run a sequence of operations from a given service state. -/
def runOps (svc : ServiceState) (ops : List SearchOp) : ServiceState :=
  ops.foldl stepOp svc

/-- The invariant claimed for `selectedIndex`: a valid index into
`results`, or 0 when `results` is empty. -/
def selInvariant (s : SearchState) : Prop :=
  s.selectedIndex < s.results.length ∨ (s.results = [] ∧ s.selectedIndex = 0)

instance (s : SearchState) : Decidable (selInvariant s) := by
  unfold selInvariant; infer_instance

/-- Whether two results clash for deduplication purposes in the words of
the spec: both have a title and the lower-cased titles are equal. -/
def titlesClash (r e : SearchResult) : Bool :=
  match lowerTitle r, lowerTitle e with
  | some a, some b => a = b
  | _, _ => false

/-- The combine function in the words of the claim (spec §4.5): all
local results first, then walk historical results in order and append
any whose lower-cased title does not equal the lower-cased title of any
earlier-emitted result. -/
def specCombineClaim (localResults historicalResults : List SearchResult) :
    List SearchResult :=
  historicalResults.foldl
    (fun acc r => if acc.any (fun e => titlesClash r e) then acc else acc ++ [r])
    localResults

/-- Emission test of the amended combine spec: the historical result has
a title, its lower-cased form is nonempty, and it clashes with no
earlier-emitted result. -/
def amendedKeep (acc : List SearchResult) (r : SearchResult) : Bool :=
  match lowerTitle r with
  | some t => decide (t ≠ "") && !(acc.any (fun e => titlesClash r e))
  | none => false

/-- One step of the amended combine spec's walk. -/
def amendedStep (acc : List SearchResult) (r : SearchResult) : List SearchResult :=
  if amendedKeep acc r then acc ++ [r] else acc

/-- The combine function in the words of the amended claim: as
`specCombineClaim`, but historical results whose title is absent or
lower-cases to the empty string are dropped. -/
def specCombineAmended (localResults historicalResults : List SearchResult) :
    List SearchResult :=
  historicalResults.foldl amendedStep localResults

/-- Operations belonging to a search's own lifecycle that write
`currentOffset := 0`: the synchronous start of `executeSearch` and its
historical completion. -/
def opIsSearchPhase : SearchOp → Bool
  | SearchOp.execStart _ _ => true
  | SearchOp.histDone _ _ => true
  | _ => false

/-- A `loadMoreResults` step whose fetch resolved successfully. -/
def opIsLoadMoreSuccess : SearchOp → Bool
  | SearchOp.loadMore (FetchOutcome.success _) => true
  | _ => false

/-- The offset-change discipline in the words of the claim: across one
operation, `currentOffset` is unchanged, or reset to 0 by the search's
own lifecycle (start or historical completion), or advanced by exactly
the page size by a successful `loadMoreResults`. -/
def offsetChangeClaim (svc : ServiceState) (op : SearchOp) : Prop :=
  (stepOp svc op).state.currentOffset = svc.state.currentOffset
  ∨ ((stepOp svc op).state.currentOffset = 0 ∧ opIsSearchPhase op = true)
  ∨ ((stepOp svc op).state.currentOffset
       = svc.state.currentOffset + DEFAULT_SEARCH_LIMIT
     ∧ opIsLoadMoreSuccess op = true)

instance (svc : ServiceState) (op : SearchOp) : Decidable (offsetChangeClaim svc op) := by
  unfold offsetChangeClaim; infer_instance

/-- Operations that cannot break the `selectedIndex` invariant from the
given state: everything except an `executeSearch` start hitting the
empty-guard branch (which empties `results` without resetting
`selectedIndex`) and a current-generation historical completion (which
can shrink `results` below `selectedIndex`). -/
def opPreservesSel (svc : ServiceState) : SearchOp → Prop
  | SearchOp.execStart _ _ => emptySearchGuard svc.state = false
  | SearchOp.histDone cid _ => cid ≠ svc.requestId
  | _ => True

/- Concrete fixtures used by witnesses and counterexamples. -/

/-- A historical result whose story title is the empty string. -/
def histEmptyTitle : SearchResult :=
  { story := { title := some "", sid := 1 }, batchId := some "batch1" }

/-- A historical result titled "Bravo". -/
def histBravo : SearchResult :=
  { story := { title := some "Bravo", sid := 2 }, batchId := some "batch1" }

/-- A local result whose story title is the empty string. -/
def locEmptyTitle : SearchResult :=
  { story := { title := some "", sid := 3 }, batchId := none }

/-- A local result titled "Alpha". -/
def locAlpha : SearchResult :=
  { story := { title := some "Alpha", sid := 4 }, batchId := none }

/-- A historical result titled "alpha" (case-differing duplicate of
`locAlpha`). -/
def histAlphaLower : SearchResult :=
  { story := { title := some "alpha", sid := 5 }, batchId := some "batch1" }

/-- Four distinct local results to navigate over. -/
def locList4 : List SearchResult :=
  [ { story := { title := some "n1", sid := 11 }, batchId := none },
    { story := { title := some "n2", sid := 12 }, batchId := none },
    { story := { title := some "n3", sid := 13 }, batchId := none },
    { story := { title := some "n4", sid := 14 }, batchId := none } ]

/-- The service after one real search (generation 1): nonempty query,
`executeSearch` ran its synchronous part. -/
def svcGen1 : ServiceState :=
  runOps initService
    [ SearchOp.updateInput "abc" [], SearchOp.execStart true true ]

/-- The service after two back-to-back searches (generation 2 current). -/
def svcGen2 : ServiceState :=
  runOps initService
    [ SearchOp.updateInput "abc" [],
      SearchOp.execStart true true,
      SearchOp.execStart true true ]

/-- A generation-1 historical response used to test staleness. -/
def respHistStale : HistoricalResponse :=
  { historicalResults := [histBravo], historicalCount := 7, hasMore := true }

/-- A generation-1 local response used to test staleness. -/
def respLocalStale : LocalResponse :=
  { localResults := [locAlpha], localCount := 1 }

/-- The service after a search whose historical phase reported more
pages, followed by one successful `loadMoreResults`: `currentOffset` is
one page in. -/
def svcOffsetOnePage : ServiceState :=
  runOps initService
    [ SearchOp.updateInput "abc" [],
      SearchOp.execStart true true,
      SearchOp.histDone 1
        { historicalResults := [histBravo], historicalCount := 40, hasMore := true },
      SearchOp.loadMore (FetchOutcome.success
        { historicalResults := [histAlphaLower], historicalCount := 40, hasMore := true }) ]

/-- The service after searching, selecting the fourth result, and then
executing a search with an emptied input: `results` is empty while
`selectedIndex` is still 3. -/
def svcSelBroken : ServiceState :=
  runOps initService
    [ SearchOp.updateInput "news" [],
      SearchOp.execStart true true,
      SearchOp.localDone 1 { localResults := locList4, localCount := 4 },
      SearchOp.navigate true,
      SearchOp.navigate true,
      SearchOp.navigate true,
      SearchOp.updateInput "" [],
      SearchOp.execStart true true ]

/-- A value suggestion whose value contains a tab (whitespace that is
not a space). -/
def sugTab : FilterSuggestion :=
  { value := "a\tb", display := none, label := none, isFilterType := false }

/-- A value suggestion whose value contains a space. -/
def sugSpace : FilterSuggestion :=
  { value := "big news", display := none, label := none, isFilterType := false }

/-- A category filter context. -/
def ctxCategory : FilterContext :=
  { type := "category", startIndex := 0, fullMatch := "category:a" }

/-- Whether `cancelActiveSearch` would actually invoke `abort()` from
the given state: a controller is stored and not yet aborted. -/
def wouldAbort (svc : ServiceState) : Bool :=
  match svc.abortController with
  | some c => !c.aborted
  | none => false

/-! ## Helper lemmas about the merge loop -/

theorem any_titlesClash {r : SearchResult} {t : String}
    (hr : lowerTitle r = some t) (acc : List SearchResult) :
    acc.any (fun e => titlesClash r e) = true ↔ ∃ e ∈ acc, lowerTitle e = some t := by
  simp only [List.any_eq_true]
  constructor
  · rintro ⟨e, he, hc⟩
    refine ⟨e, he, ?_⟩
    unfold titlesClash at hc
    rw [hr] at hc
    cases hle : lowerTitle e with
    | none => rw [hle] at hc; simp at hc
    | some b =>
      rw [hle] at hc
      simp only [decide_eq_true_eq] at hc
      rw [hc]
  · rintro ⟨e, he, hle⟩
    refine ⟨e, he, ?_⟩
    unfold titlesClash
    rw [hr, hle]
    simp

theorem amendedKeep_none {r : SearchResult} (hr : lowerTitle r = none)
    (acc : List SearchResult) : amendedKeep acc r = false := by
  simp [amendedKeep, hr]

theorem amendedKeep_some {r : SearchResult} {t : String}
    (hr : lowerTitle r = some t) (acc : List SearchResult) :
    amendedKeep acc r
      = (decide (t ≠ "") && !(acc.any (fun e => titlesClash r e))) := by
  simp [amendedKeep, hr]

theorem combineLoop_eq_foldl (hist : List SearchResult) :
    ∀ (seen : List (Option String)) (acc : List SearchResult),
    (∀ t : String, some t ∈ seen ↔ ∃ e ∈ acc, lowerTitle e = some t) →
    acc ++ combineLoop seen hist = List.foldl amendedStep acc hist := by
  induction hist with
  | nil => intro seen acc _; simp [combineLoop]
  | cons r rest ih =>
    intro seen acc hinv
    cases hr : lowerTitle r with
    | none =>
      have hstep : amendedStep acc r = acc := by
        simp [amendedStep, amendedKeep_none hr]
      simp only [combineLoop, hr, List.foldl_cons, hstep]
      exact ih seen acc hinv
    | some t =>
      by_cases hkeep : t ≠ "" ∧ some t ∉ seen
      · have hclash : acc.any (fun e => titlesClash r e) = false := by
          rw [Bool.eq_false_iff]
          intro habs
          exact hkeep.2 ((hinv t).mpr ((any_titlesClash hr acc).mp habs))
        have hstep : amendedStep acc r = acc ++ [r] := by
          simp [amendedStep, amendedKeep_some hr, hclash, hkeep.1]
        have hinv' : ∀ t' : String,
            some t' ∈ (some t :: seen) ↔ ∃ e ∈ acc ++ [r], lowerTitle e = some t' := by
          intro t'
          simp only [List.mem_cons, List.mem_append, List.mem_singleton,
            List.not_mem_nil, or_false]
          constructor
          · rintro (h | h)
            · exact ⟨r, Or.inr rfl, by rw [hr, ← Option.some_inj.mp h]⟩
            · obtain ⟨e, he, hle⟩ := (hinv t').mp h
              exact ⟨e, Or.inl he, hle⟩
          · rintro ⟨e, (he | he), hle⟩
            · exact Or.inr ((hinv t').mpr ⟨e, he, hle⟩)
            · subst he
              rw [hr] at hle
              exact Or.inl hle.symm
        calc acc ++ combineLoop seen (r :: rest)
            = acc ++ (r :: combineLoop (some t :: seen) rest) := by
              simp only [combineLoop, hr, if_pos hkeep]
          _ = (acc ++ [r]) ++ combineLoop (some t :: seen) rest := by
              simp [List.append_assoc]
          _ = List.foldl amendedStep (acc ++ [r]) rest := ih _ _ hinv'
          _ = List.foldl amendedStep acc (r :: rest) := by
              simp [List.foldl_cons, hstep]
      · have hstep : amendedStep acc r = acc := by
          rcases Decidable.not_and_iff_or_not.mp hkeep with h | h
          · have ht : t = "" := by
              by_contra habs
              exact h habs
            simp [amendedStep, amendedKeep_some hr, ht]
          · have hmem : some t ∈ seen := Decidable.of_not_not h
            have hclash : acc.any (fun e => titlesClash r e) = true :=
              (any_titlesClash hr acc).mpr ((hinv t).mp hmem)
            simp [amendedStep, amendedKeep_some hr, hclash]
      -- the non-kept case continues below
        simp only [combineLoop, hr, if_neg hkeep, List.foldl_cons, hstep]
        exact ih seen acc hinv

theorem combineLoop_title_nonempty (hist : List SearchResult) :
    ∀ (seen : List (Option String)) (r : SearchResult),
    r ∈ combineLoop seen hist → ∃ t, lowerTitle r = some t ∧ t ≠ "" := by
  induction hist with
  | nil => intro seen r h; simp [combineLoop] at h
  | cons x rest ih =>
    intro seen r h
    cases hx : lowerTitle x with
    | none =>
      rw [combineLoop, hx] at h
      exact ih seen r h
    | some t =>
      simp only [combineLoop, hx] at h
      by_cases hkeep : t ≠ "" ∧ some t ∉ seen
      · rw [if_pos hkeep] at h
        rcases List.mem_cons.mp h with h | h
        · subst h; exact ⟨t, hx, hkeep.1⟩
        · exact ih _ r h
      · rw [if_neg hkeep] at h
        exact ih seen r h

/-! ## Claim theorems -/

/-- C1: a local or historical completion whose captured request id
differs from the current request id leaves the whole service state — in
particular `results`, `hasMore`, `totalCount`, `allHistoricalResults`
and `selectedIndex` — exactly as it was; and every `executeSearch` call
that passes the guard increments the request id, so the id captured by
a generation-1 handler differs from the current id once generation 2
has started. -/
theorem c1_stale_completion_is_identity :
    ∀ (svc : ServiceState) (capturedId : Nat) (respL : LocalResponse)
      (respH : HistoricalResponse) (hf inc : Bool),
    (capturedId ≠ svc.requestId →
        applyLocalCompletion svc capturedId respL = svc
      ∧ applyHistoricalCompletion svc capturedId respH = svc)
  ∧ (emptySearchGuard svc.state = false →
        (executeSearchStart svc hf inc).1.requestId = svc.requestId + 1
      ∧ (executeSearchStart svc hf inc).2.capturedId = svc.requestId + 1) := by
  intro svc cid respL respH hf inc
  refine ⟨fun h => ⟨?_, ?_⟩, fun h => ⟨?_, ?_⟩⟩
  · simp [applyLocalCompletion, h]
  · simp [applyHistoricalCompletion, h]
  · simp [executeSearchStart, h, cancelActiveSearch]
  · simp [executeSearchStart, h, cancelActiveSearch]

/-- Witness for C1: after two back-to-back searches the current request
id is 2, and a late generation-1 local or historical completion leaves
the state untouched. -/
theorem c1_stale_completion_is_identity_witness :
    applyLocalCompletion svcGen2 1 respLocalStale = svcGen2
  ∧ applyHistoricalCompletion svcGen2 1 respHistStale = svcGen2 := by
  have h :=
    (c1_stale_completion_is_identity svcGen2 1 respLocalStale respHistStale
      true true).1 (by decide)
  exact ⟨h.1, h.2⟩

/-- C3: with an empty query and no valid filter, `executeSearch`
returns `[]` from its early branch, issues neither a local nor a
historical fetch, and leaves `isLoading` unchanged (so it stays false);
the early branch also writes `results := []`. -/
theorem c3_empty_query_early_return :
    ∀ (svc : ServiceState) (hf inc : Bool),
    svc.state.query = "" →
    svc.state.filters.any (fun f => f.isValid) = false →
      (executeSearchStart svc hf inc).2.earlyReturn = some []
    ∧ (executeSearchStart svc hf inc).2.localFetchIssued = false
    ∧ (executeSearchStart svc hf inc).2.histFetchIssued = false
    ∧ (executeSearchStart svc hf inc).1.state.isLoading = svc.state.isLoading
    ∧ (executeSearchStart svc hf inc).1.state.results = [] := by
  intro svc hf inc hq hfilt
  have hg : emptySearchGuard svc.state = true := by
    simp [emptySearchGuard, hq, hfilt]
  simp [executeSearchStart, hg]

/-- Witness for C3: a fresh service has empty query and no filters; the
early return fires with no fetch and `isLoading` stays false. -/
theorem c3_empty_query_early_return_witness :
    (executeSearchStart initService true true).2.earlyReturn = some []
  ∧ (executeSearchStart initService true true).2.localFetchIssued = false
  ∧ (executeSearchStart initService true true).2.histFetchIssued = false
  ∧ (executeSearchStart initService true true).1.state.isLoading = false := by
  have h := c3_empty_query_early_return initService true true (by decide) (by decide)
  exact ⟨h.1, h.2.1, h.2.2.1, h.2.2.2.1⟩

/-- C5: when `isLoadingMore` is true or `hasMore` is false,
`loadMoreResults` returns the state entirely unchanged (so
`currentOffset`, `results`, `allHistoricalResults`, `hasMore` and
`totalCount` keep their values) and issues no fetch, whatever the fetch
would have produced. -/
theorem c5_loadMore_guard_noop :
    ∀ (svc : ServiceState) (outcome : FetchOutcome),
    (svc.state.isLoadingMore = true ∨ svc.state.hasMore = false) →
    loadMoreResults svc outcome = (svc, false) := by
  intro svc outcome h
  have hg : (svc.state.isLoadingMore || !svc.state.hasMore) = true := by
    rcases h with h | h <;> simp [h]
  simp [loadMoreResults, hg]

/-- Witness for C5: a fresh service has `hasMore = false`; a
`loadMoreResults` call is a complete no-op there. -/
theorem c5_loadMore_guard_noop_witness :
    loadMoreResults initService
      (FetchOutcome.success respHistStale) = (initService, false) :=
  c5_loadMore_guard_noop initService (FetchOutcome.success respHistStale)
    (Or.inr (by decide))

/-- C10: `getSelectedResult` is total: it returns the result at
`selectedIndex` when that is a valid index into `results`, and `null`
(here `none`) whenever `results` is empty or `selectedIndex` is out of
range; it never faults. -/
theorem c10_getSelectedResult_total :
    ∀ s : SearchState,
    (∀ h : s.selectedIndex < s.results.length,
        getSelectedResult s = some (s.results.get ⟨s.selectedIndex, h⟩))
  ∧ (s.results.length ≤ s.selectedIndex → getSelectedResult s = none) := by
  intro s
  constructor
  · intro h
    simp [getSelectedResult, List.get?_eq_get h]
  · intro h
    unfold getSelectedResult
    exact List.get?_eq_none.mpr h

/-- Witness for C10: a valid index yields the indexed result; the
reachable state with empty `results` and `selectedIndex = 3` yields
`none`. -/
theorem c10_getSelectedResult_total_witness :
    getSelectedResult
      { initialSearchState with results := [locAlpha, histBravo], selectedIndex := 1 }
      = some histBravo
  ∧ getSelectedResult svcSelBroken.state = none := by
  constructor
  · exact (c10_getSelectedResult_total
      { initialSearchState with results := [locAlpha, histBravo], selectedIndex := 1 }).1
      (by decide)
  · exact (c10_getSelectedResult_total svcSelBroken.state).2 (by decide)

/-- C2 counterexample: the claim says `combineResults` keeps every
historical result whose lower-cased title clashes with no
earlier-emitted result; but a historical result titled `""` clashes
with nothing here (there are no earlier results at all) and is still
dropped, so the code disagrees with the claim's combine on this
input. -/
theorem c2_combine_claim_counterexample :
    combineResults [] [histEmptyTitle] = []
  ∧ specCombineClaim [] [histEmptyTitle] = [histEmptyTitle]
  ∧ combineResults [] [histEmptyTitle]
      ≠ specCombineClaim [] [histEmptyTitle] := by decide

/-- C2 amended: `combineResults` returns all local results first in
their original order, followed by exactly those historical results, in
source order, whose title is present and lower-cases to a nonempty
string and whose lower-cased title does not equal the lower-cased title
of any earlier-emitted result; in particular local "Alpha" absorbs
historical "alpha". -/
theorem c2_combine_amended :
    (∀ localResults historicalResults : List SearchResult,
      combineResults localResults historicalResults
        = specCombineAmended localResults historicalResults)
  ∧ combineResults [locAlpha] [histAlphaLower, histBravo] = [locAlpha, histBravo] := by
  constructor
  · intro l h
    unfold combineResults specCombineAmended
    apply combineLoop_eq_foldl
    intro t
    simp [List.mem_map]
  · decide

/-- C9: `combineResults` passes every local result through unchanged
(even one whose title is absent or empty), and every emitted historical
result — everything after the local block — has a present, nonempty
title; a historical result without one is dropped even when no earlier
result shares its title. -/
theorem c9_combine_drops_untitled_historical :
    ∀ localResults historicalResults : List SearchResult,
    (combineResults localResults historicalResults).take localResults.length
      = localResults
  ∧ ∀ r ∈ (combineResults localResults historicalResults).drop localResults.length,
      ∃ t, r.story.title = some t ∧ t ≠ "" := by
  intro l h
  constructor
  · unfold combineResults
    exact List.take_left l _
  · unfold combineResults
    rw [List.drop_left]
    intro r hr
    obtain ⟨t, hlt, hne⟩ := combineLoop_title_nonempty h _ r hr
    obtain ⟨u, hu, hut⟩ := Option.map_eq_some'.mp hlt
    refine ⟨u, hu, fun hu0 => hne ?_⟩
    rw [← hut, hu0]
    rfl

/-- Witness for C9: a local result titled `""` passes through while a
historical result titled `""` is dropped, and the emitted historical
"Bravo" has a nonempty title. -/
theorem c9_combine_drops_untitled_historical_witness :
    (combineResults [locEmptyTitle] [histEmptyTitle, histBravo]).take 1
      = [locEmptyTitle]
  ∧ ∃ t, histBravo.story.title = some t ∧ t ≠ "" := by
  have h :=
    c9_combine_drops_untitled_historical [locEmptyTitle] [histEmptyTitle, histBravo]
  exact ⟨h.1, h.2 histBravo (by decide)⟩

/-- C4 counterexample: after a real search the request id is 1 and a
live controller is stored; `clear()` aborts it but leaves the request id
at 1 instead of incrementing it; and `executeSearch` on a fresh service
(empty query, no filters) neither aborts nor increments — both against
the claim that every such call cancels and increments. -/
theorem c4_cancel_increment_counterexample :
    svcGen1.requestId = 1
  ∧ svcGen1.abortController = some { aborted := false }
  ∧ (clearService svcGen1).2 = true
  ∧ (clearService svcGen1).1.requestId = 1
  ∧ initService.state.query = ""
  ∧ (executeSearchStart initService true true).2.didAbort = false
  ∧ (executeSearchStart initService true true).1.requestId = 0 := by decide

/-- C4 amended: an `executeSearch` call that passes the non-empty guard
aborts the stored, unaborted controller, installs a fresh one and
increments the request id; `clear()` aborts the stored, unaborted
controller and drops it but leaves the request id unchanged; an
`executeSearch` call with empty query and no valid filters neither
aborts nor touches controller or request id. -/
theorem c4_cancel_increment_amended :
    ∀ (svc : ServiceState) (hf inc : Bool),
    (emptySearchGuard svc.state = false →
        (executeSearchStart svc hf inc).1.requestId = svc.requestId + 1
      ∧ (executeSearchStart svc hf inc).2.didAbort = wouldAbort svc
      ∧ (executeSearchStart svc hf inc).1.abortController = some { aborted := false })
  ∧ ((clearService svc).1.requestId = svc.requestId
      ∧ (clearService svc).2 = wouldAbort svc
      ∧ (clearService svc).1.abortController = none)
  ∧ (emptySearchGuard svc.state = true →
        (executeSearchStart svc hf inc).1.requestId = svc.requestId
      ∧ (executeSearchStart svc hf inc).2.didAbort = false
      ∧ (executeSearchStart svc hf inc).1.abortController = svc.abortController) := by
  intro svc hf inc
  refine ⟨fun h => ?_, ?_, fun h => ?_⟩
  · refine ⟨?_, ?_, ?_⟩ <;>
      simp [executeSearchStart, h, cancelActiveSearch, wouldAbort]
  · refine ⟨?_, ?_, ?_⟩ <;>
      simp [clearService, cancelActiveSearch, wouldAbort]
  · refine ⟨?_, ?_, ?_⟩ <;>
      simp [executeSearchStart, h]

/-- Witness for C4 amended: a guard-passing `executeSearch` from the
generation-1 state aborts the live controller and moves the request id
to 2. -/
theorem c4_cancel_increment_amended_witness :
    (executeSearchStart svcGen1 true true).1.requestId = 2
  ∧ (executeSearchStart svcGen1 true true).2.didAbort = true := by
  have h := (c4_cancel_increment_amended svcGen1 true true).1 (by decide)
  refine ⟨?_, ?_⟩
  · rw [h.1]; decide
  · rw [h.2.1]; decide

/-- C6 counterexample: `currentOffset` is one page in after a search
plus one successful `loadMoreResults`; `clear()` then changes it to 0,
a change that is neither an advance by the page size nor a reset
performed by a search's own lifecycle — against the claim that those
are the only ways the offset changes. -/
theorem c6_offset_claim_counterexample :
    svcOffsetOnePage.state.currentOffset = DEFAULT_SEARCH_LIMIT
  ∧ (stepOp svcOffsetOnePage SearchOp.clearOp).state.currentOffset = 0
  ∧ ¬ offsetChangeClaim svcOffsetOnePage SearchOp.clearOp := by decide

/-- C6 amended: across every operation, `currentOffset` is unchanged,
or reset to 0 by a search's start, a search's historical completion or
`clear()`, or advanced by exactly `DEFAULT_SEARCH_LIMIT` by a
`loadMoreResults` whose fetch resolved successfully; in particular a
`loadMoreResults` whose fetch throws leaves it unchanged. -/
theorem c6_offset_discipline_amended :
    ∀ (svc : ServiceState) (op : SearchOp),
    ((stepOp svc op).state.currentOffset = svc.state.currentOffset
     ∨ ((stepOp svc op).state.currentOffset = 0
        ∧ (opIsSearchPhase op = true ∨ op = SearchOp.clearOp))
     ∨ ((stepOp svc op).state.currentOffset
          = svc.state.currentOffset + DEFAULT_SEARCH_LIMIT
        ∧ opIsLoadMoreSuccess op = true))
  ∧ (stepOp svc (SearchOp.loadMore FetchOutcome.failure)).state.currentOffset
      = svc.state.currentOffset := by
  intro svc op
  constructor
  · cases op with
    | execStart hf inc =>
      by_cases hg : emptySearchGuard svc.state = true
      · left; simp [stepOp, executeSearchStart, hg]
      · right; left
        refine ⟨?_, Or.inl rfl⟩
        simp [stepOp, executeSearchStart, hg, cancelActiveSearch]
    | localDone cid resp =>
      left
      by_cases h : cid = svc.requestId <;> simp [stepOp, applyLocalCompletion, h]
    | histDone cid resp =>
      by_cases h : cid = svc.requestId
      · right; left
        exact ⟨by simp [stepOp, applyHistoricalCompletion, h], Or.inl rfl⟩
      · left; simp [stepOp, applyHistoricalCompletion, h]
    | loadMore outcome =>
      by_cases hg : (svc.state.isLoadingMore || !svc.state.hasMore) = true
      · left; simp [stepOp, loadMoreResults, hg]
      · cases outcome with
        | success resp =>
          right; right
          exact ⟨by simp [stepOp, loadMoreResults, hg], rfl⟩
        | failure => left; simp [stepOp, loadMoreResults, hg]
    | navigate d =>
      left
      simp only [stepOp, navigateSelection]
      split <;> [rfl; skip]
      split <;> rfl
    | clearOp =>
      right; left
      exact ⟨by simp [stepOp, clearService, cancelActiveSearch, initialSearchState],
        Or.inr rfl⟩
    | updateInput q fs => left; rfl
    | chipDelete d ft q fs =>
      left
      simp only [stepOp, handleChipDeletion, updateFromInput]
      split <;> rfl
  · by_cases hg : (svc.state.isLoadingMore || !svc.state.hasMore) = true <;>
      simp [stepOp, loadMoreResults, hg]

/-- C8 counterexample: the suggestion value `"a\tb"` contains whitespace
(a tab) but no space, so the claim demands a quoted token while
`applyFilterSuggestion` builds the unquoted `category:a\tb`. -/
theorem c8_quoting_counterexample :
    applyFilterSuggestionToken sugTab ctxCategory = some "category:a\tb"
  ∧ hasAnyWhitespace sugTab.value = true
  ∧ some "category:a\tb"
      ≠ some ("category" ++ ":" ++ ("\"" ++ "a\tb" ++ "\"")) := by decide

/-- C8 amended: for a value suggestion (`isFilterType = false`) the
token is `type:value`, the value wrapped in double quotes if and only
if it contains a space character (JS `includes(" ")`), not any
whitespace character. -/
theorem c8_quoting_amended :
    ∀ (sug : FilterSuggestion) (ctx : FilterContext),
    sug.isFilterType = false →
      applyFilterSuggestionToken sug ctx
        = some (completedFilterToken ctx.type sug.value)
    ∧ (jsIncludesSpace sug.value = true →
         completedFilterToken ctx.type sug.value
           = ctx.type ++ ":" ++ ("\"" ++ sug.value ++ "\""))
    ∧ (jsIncludesSpace sug.value = false →
         completedFilterToken ctx.type sug.value = ctx.type ++ ":" ++ sug.value)
    ∧ (completedFilterToken ctx.type sug.value
         = ctx.type ++ ":" ++ ("\"" ++ sug.value ++ "\"")
       ↔ jsIncludesSpace sug.value = true) := by
  intro sug ctx hft
  refine ⟨by simp [applyFilterSuggestionToken, hft], fun h => ?_, fun h => ?_, ?_⟩
  · simp [completedFilterToken, h]
  · simp [completedFilterToken, h]
  · constructor
    · intro heq
      by_contra hns
      have hns' : jsIncludesSpace sug.value = false := by
        simpa using hns
      rw [completedFilterToken] at heq
      simp only [hns', if_neg Bool.false_ne_true] at heq
      have hlen := congrArg String.length heq
      have hq1 : ("\"" : String).length = 1 := rfl
      simp only [String.length_append, hq1] at hlen
      omega
    · intro h
      simp [completedFilterToken, h]

/-- Witness for C8 amended: the value "big news" contains a space and
is quoted. -/
theorem c8_quoting_amended_witness :
    applyFilterSuggestionToken sugSpace ctxCategory
      = some (completedFilterToken ctxCategory.type sugSpace.value)
  ∧ completedFilterToken ctxCategory.type sugSpace.value
      = ctxCategory.type ++ ":" ++ ("\"" ++ sugSpace.value ++ "\"") := by
  have h := c8_quoting_amended sugSpace ctxCategory (by decide)
  exact ⟨h.1, h.2.1 (by decide)⟩

/-- C7 counterexample: searching, stepping the selection to index 3,
then running `executeSearch` after the input was emptied reaches a
state with `results = []` and `selectedIndex = 3` — the claimed
invariant (valid index, or 0 when empty) fails on a reachable state. -/
theorem c7_sel_invariant_counterexample :
    svcSelBroken.state.results = []
  ∧ svcSelBroken.state.selectedIndex = 3
  ∧ ¬ selInvariant svcSelBroken.state := by decide

/-- C7 amended: the invariant "`selectedIndex` is a valid index into
`results`, or 0 when `results` is empty" is established by `clear()`
and by every current-generation local completion, and is preserved by
every operation except an `executeSearch` call taking the
empty-query/no-valid-filter branch and a current-generation historical
completion (both of which can leave `selectedIndex` out of range, as
the counterexample shows). -/
theorem c7_sel_invariant_amended :
    ∀ (svc : ServiceState) (op : SearchOp),
    (selInvariant svc.state → opPreservesSel svc op →
       selInvariant (stepOp svc op).state)
  ∧ selInvariant (stepOp svc SearchOp.clearOp).state
  ∧ (∀ (cid : Nat) (resp : LocalResponse), cid = svc.requestId →
       selInvariant (stepOp svc (SearchOp.localDone cid resp)).state) := by
  intro svc op
  have hlocal : ∀ (cid : Nat) (resp : LocalResponse), cid = svc.requestId →
      selInvariant (stepOp svc (SearchOp.localDone cid resp)).state := by
    intro cid resp h
    simp only [stepOp, applyLocalCompletion, if_pos h]
    unfold selInvariant
    simp only
    rcases Nat.eq_zero_or_pos resp.localResults.length with hl | hl
    · exact Or.inr ⟨List.length_eq_zero.mp hl, by trivial⟩
    · exact Or.inl hl
  have hclear : selInvariant (stepOp svc SearchOp.clearOp).state := by
    simp [stepOp, clearService, cancelActiveSearch, initialSearchState, selInvariant]
  refine ⟨?_, hclear, hlocal⟩
  intro hinv hop
  cases op with
  | execStart hf inc =>
    have hg : emptySearchGuard svc.state = false := hop
    simpa [stepOp, executeSearchStart, hg, cancelActiveSearch, selInvariant]
      using hinv
  | localDone cid resp =>
    by_cases h : cid = svc.requestId
    · exact hlocal cid resp h
    · simpa [stepOp, applyLocalCompletion, h] using hinv
  | histDone cid resp =>
    have h : cid ≠ svc.requestId := hop
    simpa [stepOp, applyHistoricalCompletion, h] using hinv
  | loadMore outcome =>
    by_cases hg : (svc.state.isLoadingMore || !svc.state.hasMore) = true
    · simpa [stepOp, loadMoreResults, hg] using hinv
    · cases outcome with
      | success resp =>
        simp only [stepOp, loadMoreResults, hg, if_neg Bool.false_ne_true]
        unfold selInvariant at hinv ⊢
        simp only [List.length_append]
        rcases hinv with hlt | ⟨hres, hsi⟩
        · left; omega
        · rw [hres, hsi]
          rcases Nat.eq_zero_or_pos resp.historicalResults.length with hl | hl
          · right
            exact ⟨by simp [List.length_eq_zero.mp hl], rfl⟩
          · left
            simpa using hl
      | failure => simpa [stepOp, loadMoreResults, hg] using hinv
  | navigate d =>
    unfold selInvariant at hinv ⊢
    simp only [stepOp, navigateSelection]
    by_cases hlen : svc.state.results.length = 0
    · rw [if_pos hlen]; exact hinv
    · rw [if_neg hlen]
      have hpos : 0 < svc.state.results.length := Nat.pos_of_ne_zero hlen
      by_cases hd : d = true
      · simp only [hd, if_pos trivial, if_true]
        left
        exact Nat.mod_lt _ hpos
      · have hd' : d = false := by simpa using hd
        simp only [hd', Bool.false_eq_true, if_false]
        by_cases hsi : svc.state.selectedIndex = 0
        · simp only [hsi, if_pos rfl]
          left
          exact Nat.sub_lt hpos Nat.one_pos
        · simp only [if_neg hsi]
          rcases hinv with hlt | ⟨hres, hsi0⟩
          · left
            exact Nat.lt_of_le_of_lt (Nat.sub_le _ _) hlt
          · exact absurd hsi0 hsi
  | clearOp => exact hclear
  | updateInput q fs => simpa [stepOp, updateFromInput, selInvariant] using hinv
  | chipDelete dl ft q fs =>
    unfold selInvariant at hinv ⊢
    simp only [stepOp, handleChipDeletion, updateFromInput]
    split <;> simpa using hinv

/-- Witness for C7 amended: from the generation-1 state (which
satisfies the invariant) a downward navigation preserves it, `clear()`
establishes it, and a current-generation local completion establishes
it. -/
theorem c7_sel_invariant_amended_witness :
    selInvariant (stepOp svcGen1 (SearchOp.navigate true)).state
  ∧ selInvariant (stepOp svcGen1 SearchOp.clearOp).state
  ∧ selInvariant
      (stepOp svcGen1 (SearchOp.localDone 1 respLocalStale)).state := by
  have h := c7_sel_invariant_amended svcGen1 (SearchOp.navigate true)
  exact ⟨h.1 (by decide) trivial, h.2.1, h.2.2 1 respLocalStale (by decide)⟩

end KiteSearch



